import Mathlib

/-!
Verification of the resume-analyzer repository (src/app.py, src/tools.py,
src/agents.py) against its natural-language specification.

The Python code is shallowly embedded: text is `String` / `List Char`,
Python's `re.search` calls for the two concrete score patterns are embedded
as explicit left-to-right scanning matchers, and the third-party collaborators
(HTTP, DOM, LLM, PDF/DOCX byte encoders) are abstracted at their call
boundary: the DOM arrives as a list of text blocks, and the document
renderers produce the sequence of (role, text) segments they feed to the
opaque byte encoders.
-/

/-! ## Basic character and string helpers (Python semantics) -/

/-- Python whitespace for `str.strip()` / `\s` (ASCII part):
space, tab, newline, carriage return, vertical tab, form feed. -/
def pyWsChar (c : Char) : Bool :=
  c = ' ' || c = '\t' || c = '\n' || c = '\r' || c.toNat = 11 || c.toNat = 12

/-- Drop trailing whitespace (Python `str.rstrip()`), structurally recursive. -/
def dropTrailingWs (l : List Char) : List Char :=
  l.foldr (fun c acc => if acc.isEmpty && pyWsChar c then [] else c :: acc) []

/-- Python `str.strip()`: remove leading and trailing whitespace. -/
def pyStrip (l : List Char) : List Char :=
  dropTrailingWs (l.dropWhile pyWsChar)

/-- Substring containment, Python `pat in s` (nonempty patterns). -/
def containsSub (l pat : List Char) : Bool :=
  match l with
  | [] => pat.isEmpty
  | _ :: rest => pat.isPrefixOf l || containsSub rest pat

/-- Python `str.split(chr(10))`: split a char list on newline characters.
Always returns at least one (possibly empty) line. -/
def splitLinesL (l : List Char) : List (List Char) :=
  match l with
  | [] => [[]]
  | c :: rest =>
    if c = '\n' then [] :: splitLinesL rest
    else
      match splitLinesL rest with
      | l0 :: ls => (c :: l0) :: ls
      | [] => [[c]]

/-- Python lowercasing restricted to ASCII letters (all keyword and tag
comparisons in the code involve ASCII-only patterns). -/
def pyLower (l : List Char) : List Char := l.map Char.toLower

/-! ## `extract_score` (src/app.py lines 52-56)

```python
def extract_score(text):
    m = re.search(r"(\d{1,3})\s*/\s*100", str(text))
    if not m:
        m = re.search(r"(?:Score|Match|Likelihood):\s*(\d{1,3})", str(text), re.IGNORECASE)
    return int(m.group(1)) if m else 0
```

`re.search` scans positions left to right.  At a position, `(\d{1,3})` with
the following `\s*/` can only succeed by taking the whole digit run at that
position (a shorter greedy choice leaves a digit where `\s*/` must match),
so a position matches iff its digit run has length 1..3 and is followed by
optional whitespace, `/`, optional whitespace and the literal `100`. -/

/-- Numeric value of a digit run (Python `int` on the matched group). -/
def digitsVal (ds : List Char) : Nat :=
  ds.foldl (fun a c => a * 10 + (c.toNat - 48)) 0

/-- Try to match `(\d{1,3})\s*/\s*100` anchored at the head of `l`. -/
def matchSlashAt (l : List Char) : Option Nat :=
  let ds := l.takeWhile Char.isDigit
  if ds.isEmpty || 3 < ds.length then none
  else
    match (l.dropWhile Char.isDigit).dropWhile pyWsChar with
    | '/' :: r2 =>
      if (r2.dropWhile pyWsChar).take 3 = ['1', '0', '0'] then some (digitsVal ds)
      else none
    | _ => none

/-- Left-to-right scan of `re.search` for the `NN/100` pattern. -/
def searchSlash (l : List Char) : Option Nat :=
  match l with
  | [] => none
  | _ :: rest =>
    match matchSlashAt l with
    | some n => some n
    | none => searchSlash rest

/-- After a label word: expect `:`, then `\s*`, then `(\d{1,3})` (greedy,
nothing follows in the pattern, so the group is the first up-to-3 digits). -/
def labelNum (rest : List Char) : Option Nat :=
  match rest with
  | ':' :: r2 =>
    let ds := ((r2.dropWhile pyWsChar).takeWhile Char.isDigit).take 3
    if ds.isEmpty then none else some (digitsVal ds)
  | _ => none

/-- Try to match `(?:Score|Match|Likelihood):\s*(\d{1,3})` (case-insensitive)
anchored at the head of `l`.  The three label words start with distinct
letters, so the alternation order is immaterial. -/
def matchLabelAt (l : List Char) : Option Nat :=
  if pyLower (l.take 5) = "score".data then labelNum (l.drop 5)
  else if pyLower (l.take 5) = "match".data then labelNum (l.drop 5)
  else if pyLower (l.take 10) = "likelihood".data then labelNum (l.drop 10)
  else none

/-- Left-to-right scan of `re.search` for the labeled score pattern. -/
def searchLabel (l : List Char) : Option Nat :=
  match l with
  | [] => none
  | _ :: rest =>
    match matchLabelAt l with
    | some n => some n
    | none => searchLabel rest

/-- `extract_score` on a char list. -/
def extractScoreL (l : List Char) : Nat :=
  match searchSlash l with
  | some n => n
  | none =>
    match searchLabel l with
    | some n => n
    | none => 0

/-- src/app.py `extract_score`. -/
def extract_score (s : String) : Nat := extractScoreL s.data

/-! ## `clean_for_latin1` (src/app.py lines 58-66)

```python
def clean_for_latin1(text):
    if not text: return ""
    chars = { '–': '-', ..., 'ﬂ': 'fl' }
    for k, v in chars.items(): text = text.replace(k, v)
    return text.encode('latin-1', 'ignore').decode('latin-1')
```
Each key is a single character, so `text.replace(k, v)` maps each
occurrence of `k` to the string `v`; `encode('latin-1', 'ignore')` drops
every character with code point above 255 and keeps the rest. -/

/-- The literal replacement table of `clean_for_latin1`, in source order.
The apostrophe and double-quote replacement characters are written via
their code points (39 and 34). -/
def latin1Replacements : List (Char × List Char) :=
  [ (Char.ofNat 0x2013, ['-']), (Char.ofNat 0x2014, ['-']),
    (Char.ofNat 0x2018, [Char.ofNat 39]), (Char.ofNat 0x2019, [Char.ofNat 39]),
    (Char.ofNat 0x201c, [Char.ofNat 34]), (Char.ofNat 0x201d, [Char.ofNat 34]),
    (Char.ofNat 0x2022, ['*']), (Char.ofNat 0x2026, ['.', '.', '.']),
    (Char.ofNat 0xa0, [' ']), (Char.ofNat 0xfb01, ['f', 'i']),
    (Char.ofNat 0xfb02, ['f', 'l']) ]

/-- `text.replace(k, v)` for a single-character pattern `k`. -/
def replaceChar (l : List Char) (k : Char) (v : List Char) : List Char :=
  l.flatMap (fun c => if c = k then v else [c])

/-- A character survives `encode('latin-1', 'ignore')`. -/
def isLatin1 (c : Char) : Bool := c.toNat ≤ 255

/-- src/app.py `clean_for_latin1` on a char list. -/
def cleanForLatin1L (l : List Char) : List Char :=
  (latin1Replacements.foldl (fun acc kv => replaceChar acc kv.1 kv.2) l).filter isLatin1

/-- src/app.py `clean_for_latin1`. -/
def clean_for_latin1 (s : String) : String := ⟨cleanForLatin1L s.data⟩

/-! ## The `TRANSFORMATION LOG` marker split (src/app.py lines 318-324)

```python
full_text = st.session_state.optimized_result
if "TRANSFORMATION LOG" in full_text:
    resume_part, log_part = full_text.split("TRANSFORMATION LOG")
else:
    resume_part = full_text
    log_part = "AI summary not generated. Refer to selected improvements below."
```
`str.split(sep)` splits on every non-overlapping occurrence; the 2-tuple
unpacking succeeds only when the list has exactly two parts, i.e. when the
marker occurs exactly once — otherwise Python raises `ValueError`. -/

def markerChars : List Char := "TRANSFORMATION LOG".data

/-- Python `"TRANSFORMATION LOG" in full_text`. -/
def containsMarker (l : List Char) : Bool := containsSub l markerChars

/-- Python `full_text.split("TRANSFORMATION LOG")`, fuel-driven so that it
reduces in the kernel; `fuel = l.length` always suffices. -/
def splitMarkerAux : Nat → List Char → List Char → List (List Char)
  | 0, l, acc => [acc.reverse ++ l]
  | _ + 1, [], acc => [acc.reverse]
  | f + 1, c :: rest, acc =>
    if markerChars.isPrefixOf (c :: rest) then
      acc.reverse :: splitMarkerAux f (rest.drop (markerChars.length - 1)) []
    else splitMarkerAux f rest (c :: acc)

def splitMarker (l : List Char) : List (List Char) := splitMarkerAux l.length l []

/-- The step-3 results-page split of the optimized result into a resume part
and a transformation-log part.  `Except.error` models an uncaught Python
`ValueError` from the 2-tuple unpacking. -/
def stepThreeSplit (full : String) : Except String (String × String) :=
  if containsMarker full.data then
    match splitMarker full.data with
    | [a, b] => .ok (⟨a⟩, ⟨b⟩)
    | _ => .error "ValueError: unpacking str.split result"
  else
    .ok (full, "AI summary not generated. Refer to selected improvements below.")

/-! ## Document renderers (src/app.py lines 68-121)

`create_pdf` and `create_templated_docx` both clean the text
(`text.split("TRANSFORMATION LOG")[0].replace("REVISED RESUME", "").strip()`,
the PDF path applying `clean_for_latin1` first), split it into lines, emit
the first line as the document title and classify every further line as
vertical space / section heading / body paragraph.  The opaque FPDF and
python-docx byte encoders are abstracted at their call boundary: the
renderers are modelled as producing the exact sequence of segments they
hand to those encoders.  The style descriptor (font, color, alignment)
parameterizes only visual attributes of the emitted cells, never the
classification, so it does not appear in the segment model. -/

/-- Python `s.split(sep)[0]`: the prefix before the first occurrence of
`"TRANSFORMATION LOG"` (the whole list when the marker is absent). -/
def takeUntilMarker (l : List Char) : List Char :=
  match l with
  | [] => []
  | c :: rest =>
    if markerChars.isPrefixOf (c :: rest) then []
    else c :: takeUntilMarker rest

/-- Python `s.replace(pat, repl)` for a nonempty pattern (non-overlapping,
left to right), fuel-driven; `fuel = l.length` always suffices. -/
def replaceSubAux (pat repl : List Char) : Nat → List Char → List Char
  | 0, l => l
  | _ + 1, [] => []
  | f + 1, c :: rest =>
    if pat.isPrefixOf (c :: rest) then
      repl ++ replaceSubAux pat repl f (rest.drop (pat.length - 1))
    else c :: replaceSubAux pat repl f rest

def replaceSub (l pat repl : List Char) : List Char := replaceSubAux pat repl l.length l

/-- The shared cleanup of both renderers:
`text.split("TRANSFORMATION LOG")[0].replace("REVISED RESUME", "").strip()`. -/
def rendererClean (l : List Char) : List Char :=
  pyStrip (replaceSub (takeUntilMarker l) "REVISED RESUME".data [])

/-- One output segment handed to the opaque byte encoder. -/
inductive Seg where
  | title : String → Seg
  | heading : String → Seg
  | body : String → Seg
  | vspace : Seg
deriving DecidableEq

/-- Python `line.isupper()` for ASCII text: at least one cased character and
no lowercase character. -/
def pyIsUpper (l : List Char) : Bool :=
  l.any Char.isAlpha && !(l.any Char.isLower)

/-- Python `line.endswith(chr(58))`: the line ends with a colon. -/
def endsWithColon (l : List Char) : Bool := l.getLast? = some ':'

/-- The heading test shared by both renderers:
`len(line) < 50 and (line.isupper() or line.endswith(chr(58)))`. -/
def headingTest (line : List Char) : Bool :=
  line.length < 50 && (pyIsUpper line || endsWithColon line)

/-- Per-line segment of the PDF body loop (src/app.py lines 85-96): a blank
line emits `pdf.ln(2)` (vertical space), otherwise the heading test decides
between a heading cell and a body multi-cell, both on the stripped line. -/
def pdfLineSeg (line : List Char) : Seg :=
  if (pyStrip line).isEmpty then Seg.vspace
  else if headingTest line then Seg.heading ⟨pyStrip line⟩
  else Seg.body ⟨pyStrip line⟩

/-- Per-line segment of the DOCX body loop (src/app.py lines 110-117): a
blank line emits nothing at all (`if line.strip():` with no else branch). -/
def docxLineSeg (line : List Char) : Option Seg :=
  if (pyStrip line).isEmpty then none
  else if headingTest line then some (Seg.heading ⟨pyStrip line⟩)
  else some (Seg.body ⟨pyStrip line⟩)

/-- src/app.py `create_pdf`, abstracted to the segment sequence it hands to
FPDF.  The PDF path additionally applies `clean_for_latin1` before the
shared cleanup. -/
def create_pdf (text : String) : List Seg :=
  let lines := splitLinesL (rendererClean (cleanForLatin1L text.data))
  match lines with
  | [] => []
  | l0 :: rest => Seg.title ⟨pyStrip l0⟩ :: rest.map pdfLineSeg

/-- src/app.py `create_templated_docx`, abstracted to the segment sequence
it hands to python-docx. -/
def create_templated_docx (text : String) : List Seg :=
  let lines := splitLinesL (rendererClean text.data)
  match lines with
  | [] => []
  | l0 :: rest => Seg.title ⟨pyStrip l0⟩ :: rest.filterMap docxLineSeg

/-! ## `fetch_jd` content filtering (src/app.py lines 123-157)

The HTTP fetch and DOM parsing are external collaborators; the embedding
starts where the code iterates `target.find_all([...])`: each DOM block
arrives as its visible text (`block.get_text(strip=True)`) together with
whether its tag name is `li`.  The model covers the success path — the
filtering, whitespace collapsing, adjacent dedup, joining and truncation. -/

/-- One block-level element of the selected content region. -/
structure Block where
  text : String
  isLi : Bool

def priorityKeywords : List (List Char) :=
  ["responsibility".data, "requirement".data, "qualification".data, "skill".data,
   "experience".data, "bonus".data, "stack".data, "technology".data,
   "about the role".data]

def noiseKeywords : List (List Char) :=
  ["equal opportunity".data, "inclusive".data, "cookie".data, "copyright".data,
   "all rights reserved".data, "privacy policy".data, "terms of service".data,
   "follow us".data]

/-- Python `re.sub(r"\s+", chr(32), text)`: collapse every whitespace run to
a single space; fuel-driven, `fuel = l.length` always suffices. -/
def collapseWsAux : Nat → List Char → List Char
  | 0, l => l
  | _ + 1, [] => []
  | f + 1, c :: rest =>
    if pyWsChar c then ' ' :: collapseWsAux f (rest.dropWhile pyWsChar)
    else c :: collapseWsAux f rest

def collapseWs (l : List Char) : List Char := collapseWsAux l.length l

/-- The per-block body of the `find_all` loop: `None` models `continue`,
`some` the value appended to `relevant_text`. -/
def relevantOne (b : Block) : Option (List Char) :=
  let t := b.text.data
  if t.length < 15 then none
  else if noiseKeywords.any (fun k => containsSub (pyLower t) k) then none
  else if (priorityKeywords.any (fun k => containsSub (pyLower t) k)) || b.isLi
      || 40 < t.length then
    some (collapseWs t)
  else none

/-- The adjacent dedup loop: keep a line unless its first 30 characters
equal the first 30 characters of the previously kept line. -/
def dedupGo (prev : List Char) : List (List Char) → List (List Char)
  | [] => []
  | l :: rest =>
    if l.take 30 = prev.take 30 then dedupGo prev rest
    else l :: dedupGo l rest

def dedupAdjacent : List (List Char) → List (List Char)
  | [] => []
  | l :: rest => l :: dedupGo l rest

/-- Python `(chr(10) + chr(10)).join(lines)`. -/
def joinBlankLine : List (List Char) → List Char
  | [] => []
  | [l] => l
  | l :: rest => l ++ '\n' :: '\n' :: joinBlankLine rest

/-- src/app.py `fetch_jd`, success path, from the extracted DOM blocks on:
filter, collapse, dedup, join with blank lines, truncate to 8000. -/
def fetch_jd (blocks : List Block) : String :=
  ⟨(joinBlankLine (dedupAdjacent (blocks.filterMap relevantOne))).take 8000⟩

/-- The spec-side keep condition of C4, written as the claim states it:
at least 15 characters, no noise keyword, and (priority keyword or list
item or longer than 40 characters). -/
def keepSpec (b : Block) : Bool :=
  let t := b.text.data
  15 ≤ t.length
    && noiseKeywords.all (fun k => !containsSub (pyLower t) k)
    && ((priorityKeywords.any (fun k => containsSub (pyLower t) k)) || b.isLi
        || 40 < t.length)

/-! ## `extract_text` (src/tools.py lines 21-36)

The filesystem and the pdfplumber / python-docx decoders are external
collaborators; a file is modelled by whether its path exists, its extension
(Python checks `endswith` for the two known suffixes), the per-page /
per-paragraph texts the decoder would yield, and an optional exception
message raised by the decoder (caught by the `except` clause). -/

inductive FileExt where
  | pdf
  | docx
  | other
deriving DecidableEq

structure FileModel where
  pathExists : Bool
  ext : FileExt
  /-- per page, `page.extract_text()` — `none` models a page with no
  extractable text (`or` substitutes the empty string). -/
  pdfPages : List (Option String)
  /-- per paragraph, `para.text`. -/
  docxParas : List String
  /-- `some msg`: the underlying decoder raises an exception with this
  message (`str(e)`). -/
  raisesMsg : Option String

/-- Python `chr(10).join(paras)`. -/
def joinNl : List (List Char) → List Char
  | [] => []
  | [l] => l
  | l :: rest => l ++ '\n' :: joinNl rest

/-- The raw accumulated text before the final truthiness check. -/
def rawExtract (f : FileModel) : String :=
  match f.ext with
  | .pdf => String.join (f.pdfPages.map (fun o => o.getD ""))
  | .docx => ⟨joinNl (f.docxParas.map String.data)⟩
  | .other => ""

/-- src/tools.py `extract_text`: always returns a string; error conditions
are reported as strings starting with a literal error message. -/
def extract_text (f : FileModel) : String :=
  if f.pathExists = false then "Error: File path does not exist."
  else
    match f.raisesMsg with
    | some e => "Error reading file: " ++ e
    | none =>
      let text := rawExtract f
      if text.data.isEmpty then "Error: No text could be extracted."
      else ⟨pyStrip text.data⟩

/-! ## `parse_feedback` (src/app.py lines 159-174)

```python
def parse_feedback(text):
    sections = {"requirements": {"high": [], "medium": [], "low": []},
                "qualifications": {"high": [], "medium": [], "low": []}}
    current_section = "requirements"
    prio = "medium"
    for line in str(text).split(chr(10)):
        l = line.lower()
        if "qualification" in l or "experience" in l: current_section = "qualifications"
        elif "requirement" in l or "skill" in l: current_section = "requirements"
        if "[high]" in l or "critical" in l: prio = "high"
        elif "[low]" in l: prio = "low"
        elif "[medium]" in l or "important" in l: prio = "medium"
        if line.strip().startswith((...)):
            item = line.strip().lstrip(...).replace("[HIGH]", "")
                       .replace("[MEDIUM]", "").replace("[LOW]", "").strip()
            if len(item) > 3:
                sections[current_section][prio].append(item)
    return sections
```
The bullet-glyph entry of the `startswith` tuple and of the `lstrip`
character set is, in the repository's source bytes, the three-character
mojibake sequence U+201A U+00C4 U+00A2 (not U+2022); the embedding keeps
the literal characters of the source.  Note the parser records no
missing/repurpose status anywhere, only uppercase priority tags are
stripped from the item text, and `prio`/`current_section` persist across
lines. -/

structure PrioBuckets where
  high : List String
  medium : List String
  low : List String
deriving DecidableEq

structure Feedback where
  requirements : PrioBuckets
  qualifications : PrioBuckets
deriving DecidableEq

def emptyFeedback : Feedback := ⟨⟨[], [], []⟩, ⟨[], [], []⟩⟩

inductive SectionK where
  | requirements
  | qualifications
deriving DecidableEq

inductive PrioK where
  | high
  | medium
  | low
deriving DecidableEq

/-- `sections[current_section][prio].append(item)`. -/
def addItem (fb : Feedback) (sec : SectionK) (p : PrioK) (item : String) : Feedback :=
  match sec, p with
  | .requirements, .high => { fb with requirements.high := fb.requirements.high ++ [item] }
  | .requirements, .medium => { fb with requirements.medium := fb.requirements.medium ++ [item] }
  | .requirements, .low => { fb with requirements.low := fb.requirements.low ++ [item] }
  | .qualifications, .high => { fb with qualifications.high := fb.qualifications.high ++ [item] }
  | .qualifications, .medium => { fb with qualifications.medium := fb.qualifications.medium ++ [item] }
  | .qualifications, .low => { fb with qualifications.low := fb.qualifications.low ++ [item] }

/-- The mojibake bullet glyph of the source bytes, U+201A U+00C4 U+00A2. -/
def bulletGlyph : List Char := [Char.ofNat 0x201A, Char.ofNat 0xC4, Char.ofNat 0xA2]

/-- Python `stripped.startswith((chr(45), chr(42), glyph, "1."))`. -/
def startsWithBullet (stripped : List Char) : Bool :=
  ['-'].isPrefixOf stripped || ['*'].isPrefixOf stripped
    || bulletGlyph.isPrefixOf stripped || ['1', '.'].isPrefixOf stripped

/-- The character set of `lstrip("- *" + glyph + "1.2.3.")`. -/
def bulletStripChars : List Char :=
  ['-', ' ', '*', Char.ofNat 0x201A, Char.ofNat 0xC4, Char.ofNat 0xA2, '1', '.', '2', '3']

/-- Python `.replace("[HIGH]", "").replace("[MEDIUM]", "").replace("[LOW]", "")`:
only the uppercase priority tags are removed. -/
def stripPrioTags (l : List Char) : List Char :=
  replaceSub (replaceSub (replaceSub l "[HIGH]".data []) "[MEDIUM]".data []) "[LOW]".data []

/-- The item text a bulleted line contributes. -/
def itemOf (line : List Char) : List Char :=
  pyStrip (stripPrioTags ((pyStrip line).dropWhile (fun c => bulletStripChars.contains c)))

structure ParseState where
  fb : Feedback
  sec : SectionK
  prio : PrioK

/-- The body of the `for line in ...` loop of `parse_feedback`. -/
def processLine (st : ParseState) (line : List Char) : ParseState :=
  let l := pyLower line
  let sec :=
    if containsSub l "qualification".data || containsSub l "experience".data then
      SectionK.qualifications
    else if containsSub l "requirement".data || containsSub l "skill".data then
      SectionK.requirements
    else st.sec
  let prio :=
    if containsSub l "[high]".data || containsSub l "critical".data then PrioK.high
    else if containsSub l "[low]".data then PrioK.low
    else if containsSub l "[medium]".data || containsSub l "important".data then PrioK.medium
    else st.prio
  if startsWithBullet (pyStrip line) then
    if 3 < (itemOf line).length then ⟨addItem st.fb sec prio ⟨itemOf line⟩, sec, prio⟩
    else ⟨st.fb, sec, prio⟩
  else ⟨st.fb, sec, prio⟩

/-- src/app.py `parse_feedback`. -/
def parse_feedback (text : String) : Feedback :=
  ((splitLinesL text.data).foldl processLine
    ⟨emptyFeedback, SectionK.requirements, PrioK.medium⟩).fb

/-! ## Wizard step gates (src/app.py lines 231-247 and 297-305)

The Streamlit widgets and session store are external collaborators; the
gates are the boolean conditions the code evaluates on the button clicks.
Step numbers are those of `st.session_state.step` (1 = Setup,
2 = Analysis, 3 = Results). -/

structure SetupState where
  /-- `up` is truthy: a resume file has been uploaded. -/
  hasResume : Bool
  /-- `st.session_state.jd_text`. -/
  jdText : String
  /-- `get_api_key(st.session_state.provider)` result. -/
  apiKey : String

/-- The step-1 gate `if up and len(st.session_state.jd_text) > 50 and current_key:`. -/
def setupGate (s : SetupState) : Bool :=
  s.hasResume && 50 < s.jdText.length && !s.apiKey.data.isEmpty

/-- Step reached after the step-1 button click. -/
def setupNext (s : SetupState) : Nat := if setupGate s then 2 else 1

/-- The error message reported on a blocked step-1 transition
(`None` when the gate passes); the `elif` chain checks the key first, the
resume second, the job text last. -/
def setupBlockedMsg (s : SetupState) : Option String :=
  if setupGate s then none
  else if s.apiKey.data.isEmpty then some "Please configure your API key"
  else if !s.hasResume then some "Please upload your resume to continue."
  else some "Please provide a more detailed job description."

/-- The step-2 gate: `if not selected_items: warning else: ... step = 3`. -/
def analysisNext (selectedItems : List String) : Nat :=
  if selectedItems.isEmpty then 2 else 3

/-! ## Spec-side mirror definitions

These definitions restate, as standalone functions following the spec's or
the amended claims' wording, behavior that the code-side definitions above
implement inline; the claim theorems below prove the two sides agree. -/

/-- Spec-side section update of `parse_feedback`: a line mentioning
`qualification`/`experience` switches to qualifications, else one
mentioning `requirement`/`skill` switches to requirements, else the
previous section persists (case-insensitive substring checks). -/
def sectionUpdate (sec : SectionK) (line : List Char) : SectionK :=
  if containsSub (pyLower line) "qualification".data
      || containsSub (pyLower line) "experience".data then
    SectionK.qualifications
  else if containsSub (pyLower line) "requirement".data
      || containsSub (pyLower line) "skill".data then
    SectionK.requirements
  else sec

/-- Spec-side priority update of `parse_feedback`: `[high]`/`critical`
sets high, else `[low]` sets low, else `[medium]`/`important` sets medium,
else the previous (initially medium) priority persists. -/
def prioUpdate (p : PrioK) (line : List Char) : PrioK :=
  if containsSub (pyLower line) "[high]".data
      || containsSub (pyLower line) "critical".data then
    PrioK.high
  else if containsSub (pyLower line) "[low]".data then PrioK.low
  else if containsSub (pyLower line) "[medium]".data
      || containsSub (pyLower line) "important".data then
    PrioK.medium
  else p

/-- The text payload a segment hands to the byte encoder. -/
def segText : Seg → List Char
  | .title s => s.data
  | .heading s => s.data
  | .body s => s.data
  | .vspace => []

/-- The cleaned text of the PDF rendering path. -/
def pdfCleanOf (text : String) : List Char := rendererClean (cleanForLatin1L text.data)

/-- The cleaned text of the DOCX rendering path. -/
def docxCleanOf (text : String) : List Char := rendererClean text.data

/-! # Theorems -/

/-! ### Helper lemmas -/

theorem mk_data (l : List Char) : (String.mk l).data = l := rfl

theorem dropTrailingWs_cons (c : Char) (l : List Char) :
    dropTrailingWs (c :: l) =
      if (dropTrailingWs l).isEmpty && pyWsChar c then [] else c :: dropTrailingWs l := rfl

theorem dropTrailingWs_subset (l : List Char) : dropTrailingWs l ⊆ l := by
  induction l with
  | nil => simp [dropTrailingWs]
  | cons c rest ih =>
    rw [dropTrailingWs_cons]
    split
    · exact List.nil_subset _
    · exact List.cons_subset_cons c ih

theorem pyStrip_subset (l : List Char) : pyStrip l ⊆ l :=
  (dropTrailingWs_subset _).trans (List.dropWhile_sublist _).subset

theorem takeUntilMarker_subset (l : List Char) : takeUntilMarker l ⊆ l := by
  induction l with
  | nil => simp [takeUntilMarker]
  | cons c rest ih =>
    unfold takeUntilMarker
    split
    · exact List.nil_subset _
    · exact List.cons_subset_cons c ih

theorem replaceSubAux_empty_subset (pat : List Char) (f : Nat) (l : List Char) :
    replaceSubAux pat [] f l ⊆ l := by
  induction f generalizing l with
  | zero => simp [replaceSubAux]
  | succ f ih =>
    cases l with
    | nil => simp [replaceSubAux]
    | cons c rest =>
      unfold replaceSubAux
      split
      · have h1 : replaceSubAux pat [] f (rest.drop (pat.length - 1)) ⊆ rest :=
          (ih _).trans (List.drop_subset _ _)
        exact (List.nil_append _) ▸ h1.trans (List.subset_cons_self c rest)
      · exact List.cons_subset_cons c (ih rest)

theorem rendererClean_subset (l : List Char) : rendererClean l ⊆ l :=
  (pyStrip_subset _).trans
    ((replaceSubAux_empty_subset _ _ _).trans (takeUntilMarker_subset _))

theorem splitLinesL_ne_nil (l : List Char) : splitLinesL l ≠ [] := by
  cases l with
  | nil => simp [splitLinesL]
  | cons c rest =>
    unfold splitLinesL
    split
    · simp
    · cases h : splitLinesL rest <;> simp

theorem mem_splitLinesL_subset {line l : List Char} (h : line ∈ splitLinesL l) :
    line ⊆ l := by
  induction l generalizing line with
  | nil =>
    simp only [splitLinesL, List.mem_singleton] at h
    simp [h]
  | cons c rest ih =>
    unfold splitLinesL at h
    by_cases hc : c = '\n'
    · rw [if_pos hc] at h
      rcases List.mem_cons.mp h with h1 | h1
      · simp [h1]
      · exact (ih h1).trans (List.subset_cons_self _ _)
    · rw [if_neg hc] at h
      cases hsp : splitLinesL rest with
      | nil => exact absurd hsp (splitLinesL_ne_nil rest)
      | cons l0 ls =>
        rw [hsp] at h
        rcases List.mem_cons.mp h with h1 | h1
        · have hl0 : l0 ∈ splitLinesL rest := by rw [hsp]; exact List.mem_cons_self _ _
          rw [h1]
          exact List.cons_subset_cons c (ih hl0)
        · have : line ∈ splitLinesL rest := by rw [hsp]; exact List.mem_cons_of_mem _ h1
          exact (ih this).trans (List.subset_cons_self _ _)

theorem mem_cleanForLatin1 {c : Char} {l : List Char} (h : c ∈ cleanForLatin1L l) :
    isLatin1 c = true :=
  (List.mem_filter.mp h).2

/-! ### C3 -/

/-- C3: for every list of extracted source blocks, `fetch_jd` returns a
string of at most 8000 characters, and that string is exactly the
blank-line join of the retained, deduplicated blocks truncated to 8000
characters (truncation is ordinary evaluation, not an error). -/
theorem fetch_jd_bounded (blocks : List Block) :
    (fetch_jd blocks).length ≤ 8000 ∧
    fetch_jd blocks =
      ⟨(joinBlankLine (dedupAdjacent (blocks.filterMap relevantOne))).take 8000⟩ := by
  refine ⟨?_, rfl⟩
  show ((joinBlankLine (dedupAdjacent (blocks.filterMap relevantOne))).take 8000).length ≤ 8000
  rw [List.length_take]
  exact Nat.min_le_left _ _

/-! ### C4 -/

theorem all_not_eq_not_any {α : Type} (l : List α) (p : α → Bool) :
    (l.all fun k => !p k) = !(l.any p) := by
  induction l with
  | nil => rfl
  | cons a t ih => simp [List.all_cons, List.any_cons, ih]

/-- C4: a block's text is retained (as its whitespace-collapsed form) if
and only if it is at least 15 characters long, contains no noise keyword
(case-insensitive substring), and contains a priority keyword or is a list
item or is longer than 40 characters; and the adjacent dedup drops a
retained line exactly when its first 30 characters equal the first 30
characters of the previously retained line. -/
theorem block_filter_iff (b : Block) (prev line : List Char) (rest : List (List Char)) :
    relevantOne b = (if keepSpec b then some (collapseWs b.text.data) else none) ∧
    dedupGo prev (line :: rest) =
      (if line.take 30 = prev.take 30 then dedupGo prev rest
       else line :: dedupGo line rest) := by
  constructor
  · by_cases h1 : b.text.data.length < 15
    · have e1 : relevantOne b = none := by
        unfold relevantOne; dsimp only; rw [if_pos h1]
      have e2 : keepSpec b = false := by
        unfold keepSpec; dsimp only
        rw [decide_eq_false (Nat.not_le.mpr h1), Bool.false_and, Bool.false_and]
      rw [e1, e2]; rfl
    · cases h2 : (noiseKeywords.any fun k => containsSub (pyLower b.text.data) k) with
      | true =>
        have e1 : relevantOne b = none := by
          unfold relevantOne; dsimp only; rw [if_neg h1, if_pos h2]
        have e2 : keepSpec b = false := by
          unfold keepSpec; dsimp only
          rw [all_not_eq_not_any, h2]
          simp
        rw [e1, e2]; rfl
      | false =>
        cases h3 : ((priorityKeywords.any fun k => containsSub (pyLower b.text.data) k)
            || b.isLi || decide (40 < b.text.data.length)) with
        | true =>
          have e1 : relevantOne b = some (collapseWs b.text.data) := by
            unfold relevantOne; dsimp only
            rw [if_neg h1, if_neg (by rw [h2]; exact Bool.false_ne_true), if_pos h3]
          have e2 : keepSpec b = true := by
            unfold keepSpec; dsimp only
            rw [all_not_eq_not_any, h2, h3, decide_eq_true (Nat.not_lt.mp h1)]
            rfl
          rw [e1, e2]; rfl
        | false =>
          have e1 : relevantOne b = none := by
            unfold relevantOne; dsimp only
            rw [if_neg h1, if_neg (by rw [h2]; exact Bool.false_ne_true), if_neg (by rw [h3]; exact Bool.false_ne_true)]
          have e2 : keepSpec b = false := by
            unfold keepSpec; dsimp only
            rw [all_not_eq_not_any, h2, h3]
            simp
          rw [e1, e2]; rfl
  · rfl

/-! ### C5 -/

/-- C5 (code bug): the step-3 split of the optimized result is NOT total:
when the literal marker `TRANSFORMATION LOG` occurs more than once in the
response, `full_text.split(...)` yields three or more parts and the Python
2-tuple unpacking `resume_part, log_part = ...` raises `ValueError`; the
embedding returns the modelled exception.  The absent-marker branch does
behave as the claim states (whole text as resume, placeholder log). -/
theorem stepThree_double_marker_raises :
    stepThreeSplit "REVISED RESUME\nA\nTRANSFORMATION LOG\nB\nTRANSFORMATION LOG\nC" =
      .error "ValueError: unpacking str.split result" ∧
    (splitMarker "REVISED RESUME\nA\nTRANSFORMATION LOG\nB\nTRANSFORMATION LOG\nC".data).length
      = 3 ∧
    stepThreeSplit "no marker at all" =
      .ok ("no marker at all",
        "AI summary not generated. Refer to selected improvements below.") :=
  ⟨rfl, by decide, rfl⟩

/-! ### C6 -/

/-- C6: `extract_text` never throws — it is a total function into strings —
and each failure is reported as an error value: a nonexistent path yields
the path error, an underlying decode failure is caught and surfaced as
`Error reading file: ...`, and an empty extraction result yields the
`No text could be extracted` error rather than an empty success. -/
theorem extract_text_total_errors (f : FileModel) :
    (f.pathExists = false → extract_text f = "Error: File path does not exist.") ∧
    (∀ e, f.pathExists = true → f.raisesMsg = some e →
      extract_text f = "Error reading file: " ++ e) ∧
    (f.pathExists = true → f.raisesMsg = none → rawExtract f = "" →
      extract_text f = "Error: No text could be extracted.") := by
  refine ⟨fun h => ?_, fun e h1 h2 => ?_, fun h1 h2 h3 => ?_⟩
  · simp [extract_text, h]
  · simp [extract_text, h1, h2]
  · simp [extract_text, h1, h2, h3]

/-- Witness for C6 at concrete file models: a missing path, a raising
decoder, and a PDF whose only page has no extractable text. -/
theorem extract_text_total_errors_witness :
    extract_text ⟨false, FileExt.pdf, [], [], none⟩ = "Error: File path does not exist." ∧
    extract_text ⟨true, FileExt.docx, [], [], some "bad zip"⟩ = "Error reading file: bad zip" ∧
    extract_text ⟨true, FileExt.pdf, [none], [], none⟩ =
      "Error: No text could be extracted." :=
  ⟨(extract_text_total_errors _).1 rfl,
   (extract_text_total_errors _).2.1 "bad zip" rfl rfl,
   (extract_text_total_errors _).2.2 rfl rfl (by decide)⟩

/-! ### C2 -/

theorem searchSlash_cons (c : Char) (rest : List Char) :
    searchSlash (c :: rest) =
      (match matchSlashAt (c :: rest) with
       | some n => some n
       | none => searchSlash rest) := rfl

theorem searchLabel_cons (c : Char) (rest : List Char) :
    searchLabel (c :: rest) =
      (match matchLabelAt (c :: rest) with
       | some n => some n
       | none => searchLabel rest) := rfl

theorem matchSlashAt_nondigit {c : Char} (l : List Char) (h : Char.isDigit c = false) :
    matchSlashAt (c :: l) = none := by
  simp [matchSlashAt, List.takeWhile_cons, h]

theorem searchSlash_append {p : List Char} (l : List Char)
    (hp : ∀ c ∈ p, Char.isDigit c = false) :
    searchSlash (p ++ l) = searchSlash l := by
  induction p with
  | nil => rfl
  | cons c t ih =>
    have hc : Char.isDigit c = false := hp c (List.mem_cons_self c t)
    rw [List.cons_append, searchSlash_cons, matchSlashAt_nondigit _ hc]
    exact ih fun x hx => hp x (List.mem_cons_of_mem _ hx)

theorem digits_split (ds q : List Char) (h3 : ∀ c ∈ ds, Char.isDigit c = true) :
    (ds ++ '/' :: q).takeWhile Char.isDigit = ds ∧
    (ds ++ '/' :: q).dropWhile Char.isDigit = '/' :: q := by
  induction ds with
  | nil => exact ⟨rfl, rfl⟩
  | cons d t ih =>
    have hd : Char.isDigit d = true := h3 d (List.mem_cons_self _ _)
    obtain ⟨ih1, ih2⟩ := ih fun c hc => h3 c (List.mem_cons_of_mem _ hc)
    constructor
    · rw [List.cons_append, List.takeWhile_cons, if_pos hd, ih1]
    · rw [List.cons_append, List.dropWhile_cons, if_pos hd, ih2]

theorem matchSlashAt_digits (ds q : List Char) (h1 : ds ≠ []) (h2 : ds.length ≤ 3)
    (h3 : ∀ c ∈ ds, Char.isDigit c = true) :
    matchSlashAt (ds ++ '/' :: '1' :: '0' :: '0' :: q) = some (digitsVal ds) := by
  obtain ⟨ht, hdw⟩ := digits_split ds ('1' :: '0' :: '0' :: q) h3
  have hcond : (ds.isEmpty || decide (3 < ds.length)) = false := by
    cases ds with
    | nil => exact absurd rfl h1
    | cons a t =>
      simp only [List.isEmpty_cons, Bool.false_or, decide_eq_false_iff_not]
      omega
  unfold matchSlashAt
  dsimp only
  rw [ht, hdw, if_neg (by rw [hcond]; exact Bool.false_ne_true)]
  rfl

theorem searchSlash_digits (ds q : List Char) (h1 : ds ≠ []) (h2 : ds.length ≤ 3)
    (h3 : ∀ c ∈ ds, Char.isDigit c = true) :
    searchSlash (ds ++ '/' :: '1' :: '0' :: '0' :: q) = some (digitsVal ds) := by
  cases ds with
  | nil => exact absurd rfl h1
  | cons d t =>
    rw [List.cons_append, searchSlash_cons, ← List.cons_append,
      matchSlashAt_digits _ q h1 h2 h3]

theorem nodigit_takeWhile {l : List Char} (h : ∀ c ∈ l, Char.isDigit c = false) :
    l.takeWhile Char.isDigit = [] := by
  cases l with
  | nil => rfl
  | cons c t =>
    rw [List.takeWhile_cons,
      if_neg (by rw [h c (List.mem_cons_self _ _)]; exact Bool.false_ne_true)]

theorem searchSlash_nodigit {l : List Char} (h : ∀ c ∈ l, Char.isDigit c = false) :
    searchSlash l = none := by
  have := searchSlash_append (p := l) [] h
  rwa [List.append_nil] at this

theorem labelNum_nodigit {r : List Char} (h : ∀ c ∈ r, Char.isDigit c = false) :
    labelNum r = none := by
  unfold labelNum
  split
  · rename_i r2
    dsimp only
    have hsub : ∀ c ∈ r2.dropWhile pyWsChar, Char.isDigit c = false := fun c hc =>
      h c (List.mem_cons_of_mem _ ((List.dropWhile_sublist _).subset hc))
    rw [nodigit_takeWhile hsub]
    rfl
  · rfl

theorem matchLabelAt_nodigit {l : List Char} (h : ∀ c ∈ l, Char.isDigit c = false) :
    matchLabelAt l = none := by
  unfold matchLabelAt
  have hdrop : ∀ n : Nat, ∀ c ∈ l.drop n, Char.isDigit c = false :=
    fun n c hc => h c (List.drop_subset n l hc)
  split_ifs <;>
    first
      | exact labelNum_nodigit (hdrop 5)
      | exact labelNum_nodigit (hdrop 10)
      | rfl

theorem searchLabel_nodigit {l : List Char} (h : ∀ c ∈ l, Char.isDigit c = false) :
    searchLabel l = none := by
  induction l with
  | nil => rfl
  | cons c t ih =>
    rw [searchLabel_cons, matchLabelAt_nodigit h]
    exact ih fun x hx => h x (List.mem_cons_of_mem _ hx)

/-- C2 counterexample: the text `"572/100"` contains the substring
`"72/100"` with `0 ≤ 72 ≤ 100`, yet `extract_score` returns 572, not 72 —
the regex group takes the whole digit run at the leftmost match position,
so "the result equals NN" fails for an in-range NN contained in the text. -/
theorem extract_score_counterexample :
    "572/100".data = '5' :: "72/100".data ∧ (72 : Nat) ≤ 100 ∧
    extract_score "572/100" = 572 ∧ extract_score "572/100" ≠ 72 :=
  ⟨by decide, by decide, by decide, by decide⟩

/-- C2 (amended): score extraction never fails; when the text decomposes as
`p ++ NN ++ "/100" ++ q` with `p` containing no digit and `NN` a run of one
to three digits whose value is at most 100 — so the `NN/100` occurrence is
the leftmost possible match and `NN` is not preceded by a digit — the
result is the value of `NN`; and when the text contains no digit at all
(so neither the slash pattern nor the labeled pattern can match), the
result is 0. -/
theorem extract_score_amended (p ds q r : List Char)
    (hp : ∀ c ∈ p, Char.isDigit c = false)
    (h1 : ds ≠ []) (h2 : ds.length ≤ 3)
    (h3 : ∀ c ∈ ds, Char.isDigit c = true)
    (hval : digitsVal ds ≤ 100)
    (hr : ∀ c ∈ r, Char.isDigit c = false) :
    extractScoreL (p ++ (ds ++ '/' :: '1' :: '0' :: '0' :: q)) = digitsVal ds ∧
    extractScoreL r = 0 := by
  constructor
  · unfold extractScoreL
    rw [searchSlash_append _ hp, searchSlash_digits ds q h1 h2 h3]
  · unfold extractScoreL
    rw [searchSlash_nodigit hr, searchLabel_nodigit hr]

/-- Witness for C2's amended claim at the spec's own scenario text. -/
theorem extract_score_amended_witness :
    extractScoreL ("Overall Score: ".data ++ ("72".data ++
        '/' :: '1' :: '0' :: '0' :: [])) = digitsVal "72".data ∧
    extractScoreL "no score at all".data = 0 :=
  extract_score_amended "Overall Score: ".data "72".data [] "no score at all".data
    (by decide) (by decide) (by decide) (by decide) (by decide) (by decide)

/-! ### C1 -/

/-- C1 counterexample: on the report `"- [MISSING] Kubernetes\n- SQL"` the
parser keeps the literal `[MISSING]` tag in the display text (only the
uppercase priority tags are stripped, so a bracketed span survives), files
the item under priority medium although no priority tag is present (the
claimed default Low is wrong — the running priority starts at medium), and
discards `SQL`, whose remaining text has 3 characters, although the claim
says only items of 2 characters or fewer are discarded.  The result also
shows the parser records no missing/repurpose status at all — items are
plain strings in (section, priority) buckets. -/
theorem parse_feedback_counterexample :
    parse_feedback "- [MISSING] Kubernetes\n- SQL" =
      { requirements := { high := [], medium := ["[MISSING] Kubernetes"], low := [] },
        qualifications := { high := [], medium := [], low := [] } } ∧
    containsSub "[MISSING] Kubernetes".data "[MISSING]".data = true :=
  ⟨by decide, by decide⟩

/-- C1 (amended): for every line, the parser first updates the running
section and the running priority (case-insensitive substring checks, the
priority also reacting to `critical`/`important`, initially medium and
carried over between lines); a line recognized as a bullet contributes its
item text — the stripped line with leading bullet characters removed and
only the literal uppercase `[HIGH]`/`[MEDIUM]`/`[LOW]` tags stripped — to
the bucket of the updated section and priority, unless that text is 3
characters or fewer, in which case it is discarded; non-bullet lines
contribute nothing.  No missing/repurpose status is recorded. -/
theorem processLine_characterization (st : ParseState) (line : List Char) :
    (processLine st line).sec = sectionUpdate st.sec line ∧
    (processLine st line).prio = prioUpdate st.prio line ∧
    (startsWithBullet (pyStrip line) = true → 3 < (itemOf line).length →
      (processLine st line).fb =
        addItem st.fb (sectionUpdate st.sec line) (prioUpdate st.prio line)
          ⟨itemOf line⟩) ∧
    (startsWithBullet (pyStrip line) = true → (itemOf line).length ≤ 3 →
      (processLine st line).fb = st.fb) ∧
    (startsWithBullet (pyStrip line) = false → (processLine st line).fb = st.fb) := by
  by_cases hb : startsWithBullet (pyStrip line) = true
  · by_cases hl : 3 < (itemOf line).length
    · have he : processLine st line =
          ⟨addItem st.fb (sectionUpdate st.sec line) (prioUpdate st.prio line)
            ⟨itemOf line⟩, sectionUpdate st.sec line, prioUpdate st.prio line⟩ := by
        unfold processLine sectionUpdate prioUpdate
        dsimp only
        rw [if_pos hb, if_pos hl]
      rw [he]
      exact ⟨rfl, rfl, fun _ _ => rfl, fun _ h2 => absurd hl (Nat.not_lt.mpr h2),
        fun h => absurd (h ▸ hb) Bool.false_ne_true⟩
    · have he : processLine st line =
          ⟨st.fb, sectionUpdate st.sec line, prioUpdate st.prio line⟩ := by
        unfold processLine sectionUpdate prioUpdate
        dsimp only
        rw [if_pos hb, if_neg hl]
      rw [he]
      exact ⟨rfl, rfl, fun _ h2 => absurd h2 hl, fun _ _ => rfl,
        fun h => absurd (h ▸ hb) Bool.false_ne_true⟩
  · have he : processLine st line =
        ⟨st.fb, sectionUpdate st.sec line, prioUpdate st.prio line⟩ := by
      unfold processLine sectionUpdate prioUpdate
      dsimp only
      rw [if_neg hb]
    rw [he]
    exact ⟨rfl, rfl, fun h _ => absurd h hb, fun h _ => absurd h hb, fun _ => rfl⟩

/-- Witness for C1's amended step characterization: a concrete tagged
bullet line is appended to the (requirements, high) bucket. -/
theorem processLine_characterization_witness :
    (processLine ⟨emptyFeedback, SectionK.requirements, PrioK.medium⟩
        "- [MISSING][HIGH] Kubernetes".data).fb =
      addItem emptyFeedback
        (sectionUpdate SectionK.requirements "- [MISSING][HIGH] Kubernetes".data)
        (prioUpdate PrioK.medium "- [MISSING][HIGH] Kubernetes".data)
        ⟨itemOf "- [MISSING][HIGH] Kubernetes".data⟩ :=
  (processLine_characterization _ _).2.2.1 (by decide) (by decide)

/-! ### C7 -/

theorem dropWhile_head_not {p : Char → Bool} {l : List Char} {c : Char} {rest : List Char}
    (h : l.dropWhile p = c :: rest) : p c = false := by
  induction l with
  | nil => simp [List.dropWhile] at h
  | cons a t ih =>
    rw [List.dropWhile_cons] at h
    split at h
    · exact ih h
    · cases h
      rename_i hpa
      exact Bool.not_eq_true _ ▸ hpa

theorem pyStrip_struct {l : List Char} (h : pyStrip l ≠ []) :
    ∃ c t, l.dropWhile pyWsChar = c :: t ∧ pyWsChar c = false ∧
      pyStrip l = c :: dropTrailingWs t := by
  cases hd : l.dropWhile pyWsChar with
  | nil =>
    exfalso
    apply h
    unfold pyStrip
    rw [hd]
    rfl
  | cons c t =>
    have hc : pyWsChar c = false := dropWhile_head_not hd
    refine ⟨c, t, rfl, hc, ?_⟩
    unfold pyStrip
    rw [hd, dropTrailingWs_cons]
    simp [hc]

theorem splitLines_head_nonWs {c : Char} (t : List Char) (hc : pyWsChar c = false) :
    ∃ l0 ls, splitLinesL (c :: t) = (c :: l0) :: ls := by
  have hne : c ≠ '\n' := by
    intro h
    rw [h] at hc
    simp [pyWsChar] at hc
  unfold splitLinesL
  rw [if_neg hne]
  cases hsp : splitLinesL t with
  | nil => exact absurd hsp (splitLinesL_ne_nil t)
  | cons l0 ls => exact ⟨l0, ls, rfl⟩

theorem pyStrip_cons_nonWs {c : Char} (t : List Char) (hc : pyWsChar c = false) :
    pyStrip (c :: t) = c :: dropTrailingWs t := by
  unfold pyStrip
  rw [List.dropWhile_cons, if_neg (by rw [hc]; exact Bool.false_ne_true),
    dropTrailingWs_cons]
  simp [hc]

/-- After the final `.strip()` of the renderer cleanup, the head line of the
line split is the first non-empty line. -/
theorem strip_head_first_nonempty {y : List Char} (h : pyStrip y ≠ []) :
    (splitLinesL (pyStrip y)).find? (fun l => !(pyStrip l).isEmpty) =
      (splitLinesL (pyStrip y)).head? := by
  obtain ⟨c, t, _, hc, he⟩ := pyStrip_struct h
  rw [he]
  obtain ⟨l0, ls, hsp⟩ := splitLines_head_nonWs (dropTrailingWs t) hc
  rw [hsp]
  have hne : (pyStrip (c :: l0)).isEmpty = false := by
    rw [pyStrip_cons_nonWs l0 hc]
    rfl
  simp [List.find?, hne]

/-- C7 counterexample: on a response with a blank line, the DOCX renderer
emits nothing at all for the blank line — no vertical spacing — while the
PDF renderer does emit vertical space; the claim's "blank lines produce
vertical spacing" is false for the DOCX encoding. -/
theorem docx_blank_line_emits_nothing :
    splitLinesL (docxCleanOf "Jane Doe\n\nDid things.") =
      ["Jane Doe".data, [], "Did things.".data] ∧
    create_templated_docx "Jane Doe\n\nDid things." =
      [Seg.title "Jane Doe", Seg.body "Did things."] ∧
    Seg.vspace ∉ create_templated_docx "Jane Doe\n\nDid things." ∧
    create_pdf "Jane Doe\n\nDid things." =
      [Seg.title "Jane Doe", Seg.vspace, Seg.body "Did things."] :=
  ⟨by decide, by decide, by decide, by decide⟩

/-- C7 (amended): both renderers emit the stripped head line of the cleaned
text as the document title, and that head line is the first non-empty line
whenever the cleaned text is non-empty; every subsequent line is classified
as a section heading exactly when it is non-empty, shorter than 50
characters, and fully upper-case or ending with a colon; other non-empty
lines become body paragraphs; blank lines yield vertical spacing in the PDF
rendering and nothing at all in the DOCX rendering. -/
theorem renderer_classification (text : String) (line : List Char) :
    (∃ l0 rest, splitLinesL (pdfCleanOf text) = l0 :: rest ∧
      create_pdf text = Seg.title ⟨pyStrip l0⟩ :: rest.map pdfLineSeg) ∧
    (∃ l0 rest, splitLinesL (docxCleanOf text) = l0 :: rest ∧
      create_templated_docx text = Seg.title ⟨pyStrip l0⟩ :: rest.filterMap docxLineSeg) ∧
    (pdfCleanOf text ≠ [] →
      (splitLinesL (pdfCleanOf text)).find? (fun l => !(pyStrip l).isEmpty) =
        (splitLinesL (pdfCleanOf text)).head?) ∧
    (pdfLineSeg line = Seg.heading ⟨pyStrip line⟩ ↔
      ((pyStrip line).isEmpty = false ∧ line.length < 50 ∧
        (pyIsUpper line = true ∨ endsWithColon line = true))) ∧
    ((pyStrip line).isEmpty = true → pdfLineSeg line = Seg.vspace) ∧
    (docxLineSeg line = none ↔ (pyStrip line).isEmpty = true) ∧
    ((pyStrip line).isEmpty = false → headingTest line = false →
      pdfLineSeg line = Seg.body ⟨pyStrip line⟩ ∧
      docxLineSeg line = some (Seg.body ⟨pyStrip line⟩)) := by
  refine ⟨?_, ?_, ?_, ?_, ?_, ?_, ?_⟩
  · cases hsp : splitLinesL (rendererClean (cleanForLatin1L text.data)) with
    | nil => exact absurd hsp (splitLinesL_ne_nil _)
    | cons l0 rest =>
      refine ⟨l0, rest, hsp, ?_⟩
      unfold create_pdf
      rw [hsp]
  · cases hsp : splitLinesL (rendererClean text.data) with
    | nil => exact absurd hsp (splitLinesL_ne_nil _)
    | cons l0 rest =>
      refine ⟨l0, rest, hsp, ?_⟩
      unfold create_templated_docx
      rw [hsp]
  · intro h
    exact strip_head_first_nonempty h
  · constructor
    · intro h
      unfold pdfLineSeg at h
      by_cases hb : (pyStrip line).isEmpty = true
      · rw [if_pos hb] at h
        exact absurd h (by simp)
      · by_cases ht : headingTest line = true
        · have h1 : (pyStrip line).isEmpty = false := Bool.not_eq_true _ ▸ hb
          unfold headingTest at ht
          simp only [Bool.and_eq_true, Bool.or_eq_true, decide_eq_true_eq] at ht
          exact ⟨h1, ht.1, ht.2⟩
        · rw [if_neg hb, if_neg ht] at h
          exact absurd h (by simp)
    · rintro ⟨h1, h2, h3⟩
      unfold pdfLineSeg
      rw [if_neg (by rw [h1]; exact Bool.false_ne_true), if_pos ?_]
      unfold headingTest
      rcases h3 with h3 | h3 <;> simp [h2, h3]
  · intro h
    unfold pdfLineSeg
    rw [if_pos h]
  · constructor
    · intro h
      unfold docxLineSeg at h
      by_cases hb : (pyStrip line).isEmpty = true
      · exact hb
      · rw [if_neg hb] at h
        split at h <;> exact absurd h (by simp)
    · intro h
      unfold docxLineSeg
      rw [if_pos h]
  · intro h1 h2
    constructor
    · unfold pdfLineSeg
      rw [if_neg (by rw [h1]; exact Bool.false_ne_true),
        if_neg (by rw [h2]; exact Bool.false_ne_true)]
    · unfold docxLineSeg
      rw [if_neg (by rw [h1]; exact Bool.false_ne_true),
        if_neg (by rw [h2]; exact Bool.false_ne_true)]

/-- Witness for C7's amended classification at a concrete text and line. -/
theorem renderer_classification_witness :
    (splitLinesL (pdfCleanOf "Jane Doe\n\nSKILLS:")).find? (fun l => !(pyStrip l).isEmpty) =
      (splitLinesL (pdfCleanOf "Jane Doe\n\nSKILLS:")).head? ∧
    pdfLineSeg "SKILLS:".data = Seg.heading ⟨pyStrip "SKILLS:".data⟩ :=
  ⟨(renderer_classification "Jane Doe\n\nSKILLS:" "SKILLS:".data).2.2.1 (by decide),
   (renderer_classification "Jane Doe\n\nSKILLS:" "SKILLS:".data).2.2.2.1.mpr
     ⟨by decide, by decide, Or.inr (by decide)⟩⟩

/-! ### C9 -/

/-- C9 counterexample: the Analysis-to-Results gate checks only that the
selection is nonempty.  Selecting a single gap item that carries the
literal `[MISSING]` tag advances the wizard to step 3 even though no
user-supplied context exists anywhere in the interaction state — the code
has no context input at all — refuting the claim's additional requirement
of non-empty context for missing items. -/
theorem analysis_gate_ignores_missing_context :
    containsSub "[MISSING] Kubernetes".data "[MISSING]".data = true ∧
    analysisNext ["[MISSING] Kubernetes"] = 3 :=
  ⟨by decide, by decide⟩

/-- C9 (amended): the wizard leaves Setup for Analysis exactly when a
resume file is present, the job text is longer than 50 characters and the
selected provider's credential is non-empty; a blocked transition reports
a failing precondition (and reports nothing exactly when the gate passes);
and it leaves Analysis for Results exactly when at least one gap item is
selected — selection alone suffices, also for `[MISSING]`-tagged items. -/
theorem wizard_gates (s : SetupState) (sel : List String) :
    (setupNext s = 2 ↔
      (s.hasResume = true ∧ 50 < s.jdText.length ∧ s.apiKey ≠ "")) ∧
    (setupBlockedMsg s = none ↔ setupNext s = 2) ∧
    (analysisNext sel = 3 ↔ sel ≠ []) := by
  refine ⟨?_, ?_, ?_⟩
  · unfold setupNext setupGate
    have hkey : (!s.apiKey.data.isEmpty) = true ↔ s.apiKey ≠ "" := by
      simp [List.isEmpty_iff, String.ext_iff]
    constructor
    · intro h
      split at h
      · rename_i hg
        simp only [Bool.and_eq_true, decide_eq_true_eq] at hg
        exact ⟨hg.1.1, hg.1.2, hkey.mp hg.2⟩
      · exact absurd h (by decide)
    · rintro ⟨h1, h2, h3⟩
      have : (s.hasResume && decide (50 < s.jdText.length) && !s.apiKey.data.isEmpty) = true := by
        simp [h1, h2, hkey.mpr h3]
      simp [this]
  · unfold setupBlockedMsg setupNext
    split
    · simp
    · refine ⟨fun h => ?_, fun h => absurd h (by decide)⟩
      revert h
      split
      · simp
      · split <;> simp
  · unfold analysisNext
    split <;> rename_i h <;> simp [List.isEmpty_iff] at h <;> simp [h]

/-- Witness for C9's amended gates at a concrete passing state. -/
theorem wizard_gates_witness :
    setupNext ⟨true, ⟨List.replicate 60 'j'⟩, "sk-key"⟩ = 2 ∧
    analysisNext ["add Kubernetes"] = 3 := by
  have h := wizard_gates ⟨true, ⟨List.replicate 60 'j'⟩, "sk-key"⟩ ["add Kubernetes"]
  exact ⟨h.1.mpr ⟨rfl, by decide, by decide⟩, h.2.2.mpr (by decide)⟩

/-! ### C10 -/

/-- Every segment the PDF renderer emits draws its characters from the
latin-1-cleaned input text. -/
theorem create_pdf_seg_sub {text : String} {seg : Seg} (h : seg ∈ create_pdf text) :
    segText seg ⊆ cleanForLatin1L text.data := by
  unfold create_pdf at h
  cases hsp : splitLinesL (rendererClean (cleanForLatin1L text.data)) with
  | nil => rw [hsp] at h; cases h
  | cons l0 rest =>
    rw [hsp] at h
    have hline : ∀ line ∈ splitLinesL (rendererClean (cleanForLatin1L text.data)),
        pyStrip line ⊆ cleanForLatin1L text.data := fun line hm =>
      (pyStrip_subset line).trans
        ((mem_splitLinesL_subset hm).trans (rendererClean_subset _))
    rcases List.mem_cons.mp h with h1 | h1
    · rw [h1]
      exact hline l0 (by rw [hsp]; exact List.mem_cons_self _ _)
    · rcases List.mem_map.mp h1 with ⟨line, hmem, hseg⟩
      have hsub : pyStrip line ⊆ cleanForLatin1L text.data :=
        hline line (by rw [hsp]; exact List.mem_cons_of_mem _ hmem)
      rw [← hseg]
      unfold pdfLineSeg
      split
      · exact List.nil_subset _
      · split <;> exact hsub

/-- C10: `clean_for_latin1` returns only latin-1-encodable characters
(code point at most 255), and consequently every text segment the PDF
renderer hands to the latin-1 byte encoder is latin-1-encodable — the
final encoding cannot fail because of characters in the resume text. -/
theorem clean_for_latin1_encodable (s text : String) (seg : Seg)
    (h : seg ∈ create_pdf text) :
    (clean_for_latin1 s).data.all isLatin1 = true ∧
    (segText seg).all isLatin1 = true := by
  constructor
  · simp only [clean_for_latin1, mk_data]
    exact List.all_eq_true.mpr fun c hc => mem_cleanForLatin1 hc
  · exact List.all_eq_true.mpr fun c hc => mem_cleanForLatin1 (create_pdf_seg_sub h hc)

/-- Witness for C10 at a concrete resume text containing an en dash, a
curly quote, a ligature and a non-latin character. -/
theorem clean_for_latin1_encodable_witness :
    (clean_for_latin1 ⟨['J', Char.ofNat 0x2013, Char.ofNat 0x2019,
        Char.ofNat 0xfb01, Char.ofNat 0x4e16]⟩).data.all isLatin1 = true ∧
    (segText (Seg.title "Jane")).all isLatin1 = true :=
  clean_for_latin1_encodable _ "Jane\nEXPERIENCE:" (Seg.title "Jane") (by decide)

/-! ### Sanity examples (concrete evaluations of the embedded code) -/

example : extract_score "Overall Score: 72/100" = 72 := by decide

example : extract_score "Score: 55" = 55 := by decide

example : extract_score "likelihood: 8 things" = 8 := by decide

example : extract_score "nothing here" = 0 := by decide

example : extract_score "572/100" = 572 := by decide

example : extract_score "1234/100" = 234 := by decide

example : stepThreeSplit "REVISED RESUME\nJane\nTRANSFORMATION LOG\nAdded X." =
    .ok ("REVISED RESUME\nJane\n", "\nAdded X.") := by rfl

example : stepThreeSplit "just a resume" =
    .ok ("just a resume", "AI summary not generated. Refer to selected improvements below.") := by
  rfl

example : (stepThreeSplit "A TRANSFORMATION LOG B TRANSFORMATION LOG C").isOk = false := by
  decide

example : create_pdf "REVISED RESUME\nJane Doe\nEXPERIENCE:\nDid things.\nTRANSFORMATION LOG\nAdded X." =
    [Seg.title "Jane Doe", Seg.heading "EXPERIENCE:", Seg.body "Did things."] := by decide

example : create_pdf "Title\n\nBody line that is here" =
    [Seg.title "Title", Seg.vspace, Seg.body "Body line that is here"] := by decide

example : create_templated_docx "Title\n\nBody line that is here" =
    [Seg.title "Title", Seg.body "Body line that is here"] := by decide

example :
    extract_text ⟨true, .pdf, [some "page one ", none, some "page two"], [], none⟩ =
      "page one page two" := by decide

example : extract_text ⟨false, .pdf, [some "x"], [], none⟩ =
    "Error: File path does not exist." := by decide

example : extract_text ⟨true, .docx, [], [], some "bad zip"⟩ =
    "Error reading file: bad zip" := by decide

example : extract_text ⟨true, .other, [], [], none⟩ =
    "Error: No text could be extracted." := by decide

example :
    parse_feedback "Overall Score: 72/100\n\nSECTION: MATCHES\n\nSECTION: JOB REQUIREMENTS GAPS\n- [MISSING][HIGH] Kubernetes\n- [REPURPOSE][LOW] SQL basics" =
      { requirements := { high := ["[MISSING] Kubernetes"], medium := [],
                          low := ["[REPURPOSE] SQL basics"] },
        qualifications := { high := [], medium := [], low := [] } } := by decide

example : setupNext ⟨true, ⟨List.replicate 51 'j'⟩, "sk-1"⟩ = 2 := by decide

example : setupNext ⟨true, ⟨List.replicate 51 'j'⟩, ""⟩ = 1 := by decide

example : analysisNext [] = 2 := by decide

example : analysisNext ["[MISSING] Kubernetes"] = 3 := by decide
